import Mathlib

/-!
# Appian — Suggestion Application Engine: verification development

This file embeds the data model and operations of the Appian repository's
suggestion-application logic and proves the specified properties about them.

Two layers are embedded:

1. The *engine* (`load`, `toggle`, `apply`): the repository delegates catalog
   construction, toggling and application to code that is not part of the
   repository snapshot (the `/api/analyze` and `/api/apply-improvements`
   endpoints, and the `toggleImprovement` handler, are only called — never
   defined — in the sources).  These operations are therefore modelled from
   the specification (§4.1, §4.2), as noted on each definition.

2. The *UI component state machine* (`HTMLModernizer` in the React component):
   its state hooks and its `analyzeHtml` / `applyImprovements` handlers are
   present in the sources and are embedded directly from that code.
-/

namespace Appian

/-- An AI-proposed improvement record (spec §3; the record shape consumed by
the `HTMLModernizer` component: `id`, `category`, `priority`, `explanation`,
`suggestion`, `original_code`, `improved_code`). -/
structure ImprovementRecord where
  id : String
  category : String
  priority : String
  explanation : String
  suggestion : String
  originalCode : String
  improvedCode : String
deriving Repr, DecidableEq

/-- A catalog is the ordered list of improvement records of one analysis pass
(provider response order). -/
abbrev Catalog := List ImprovementRecord

/-- A selection set, identified by the improvement ids toggled on.  Only
membership is meaningful. -/
abbrev SelectionSet := List String

/-- The engine's error taxonomy (spec §7). -/
inductive EngineError where
  | duplicateIdError
  | unknownImprovementError
deriving Repr, DecidableEq

/-- The ids of a catalog's records, in catalog order. -/
def catalogIds (catalog : Catalog) : List String :=
  catalog.map (fun r => r.id)

/-- Modelled from the spec: catalog construction `load(records) -> Catalog`
(§4.1), absent from the repository snapshot (the provider response is consumed
unvalidated by the UI).  Validates that all `id`s are unique, failing with
`DuplicateIdError` otherwise, and stores records in response order. -/
def load (records : List ImprovementRecord) : Except EngineError Catalog :=
  if (records.map (fun r => r.id)).Nodup then Except.ok records
  else Except.error EngineError.duplicateIdError

/-- Modelled from the spec: `toggle(catalog, selection, id)` (§4.2), absent
from the repository snapshot (the component calls `toggleImprovement` but
never defines it).  If `id` is in `selection`, remove it; otherwise, if `id`
is in `catalog`, add it; otherwise fail with `UnknownImprovementError`. -/
def toggle (catalog : Catalog) (selection : SelectionSet) (id : String) :
    Except EngineError SelectionSet :=
  if id ∈ selection then Except.ok (selection.erase id)
  else if id ∈ catalogIds catalog then Except.ok (id :: selection)
  else Except.error EngineError.unknownImprovementError

/-- Replace the first occurrence of `pat` in `s` by `rep`; `none` when `pat`
does not occur.  (Helper for the spec-modelled `apply`, §4.2 step 2/3:
"locate the first occurrence … and replace it".) -/
def replaceFirstAux : List Char → List Char → List Char → Option (List Char)
  | [], pat, rep => if pat = [] then some rep else none
  | c :: cs, pat, rep =>
    if pat.isPrefixOf (c :: cs) then some (rep ++ (c :: cs).drop pat.length)
    else (replaceFirstAux cs pat rep).map (fun t => c :: t)

/-- String wrapper for `replaceFirstAux`. -/
def replaceFirst (s pat rep : String) : Option String :=
  (replaceFirstAux s.data pat.data rep.data).map (fun l => String.mk l)

/-- One substitution attempt on the current working text: replace the first
occurrence of `r.originalCode` by `r.improvedCode`, or leave the text
unchanged when `originalCode` does not occur (spec §4.2 step 3,
miss-tolerant). -/
def substOne (working : String) (r : ImprovementRecord) : String :=
  (replaceFirst working r.originalCode r.improvedCode).getD working

/-- The per-record step of `apply`: records not in the selection leave the
working text unchanged. -/
def applyStep (selection : SelectionSet) (text : String) (r : ImprovementRecord) :
    String :=
  if r.id ∈ selection then substOne text r else text

/-- Modelled from the spec: `apply(original, catalog, selection)` (§4.2),
absent from the repository snapshot (the UI delegates application to a remote
endpoint whose code is not in the repository).  Starts from `original` and,
for each selected record taken in catalog order, replaces the first occurrence
of its `originalCode` in the current working text by its `improvedCode`,
skipping records whose `originalCode` is absent. -/
def apply (original : String) (catalog : Catalog) (selection : SelectionSet) :
    String :=
  catalog.foldl (applyStep selection) original

/-! ## UI component state machine (embedded from the `HTMLModernizer` source)

State hooks of the component:
`html` (initially `''`), `improvements` (initially `null`),
`selectedImprovements` (initially `{}`), `isAnalyzing` (initially `false`),
`improvedHtml` (initially `''`).  `improvements` is `Option`-valued because
the component stores whatever `data.improvements` holds, including
`undefined`. -/

/-- The component state (the hooks relevant to catalog/selection/preview). -/
structure ModernizerState where
  html : String
  improvements : Option (List ImprovementRecord)
  selectedImprovements : List (String × ImprovementRecord)
  isAnalyzing : Bool
  improvedHtml : String
deriving Repr, DecidableEq

/-- Initial component state (the `useState` initializers). -/
def initialModernizerState : ModernizerState :=
  { html := ""
    improvements := none
    selectedImprovements := []
    isAnalyzing := false
    improvedHtml := "" }

/-- A parsed `/api/analyze` response body: `data.improvements` may be absent
or malformed (`none`), since the component performs no validation. -/
structure AnalyzeResponse where
  improvements : Option (List ImprovementRecord)

/-- `analyzeHtml`, success path: `setImprovements(data.improvements)` then
`finally { setIsAnalyzing(false) }`.  Returns the new state and the console
messages emitted (none on success). -/
def analyzeSuccess (resp : AnalyzeResponse) (s : ModernizerState) :
    ModernizerState × List String :=
  ({ s with improvements := resp.improvements, isAnalyzing := false }, [])

/-- `analyzeHtml`, failure path: the `catch` logs to the console and the
`finally` clears `isAnalyzing`; no other state changes. -/
def analyzeFailure (s : ModernizerState) : ModernizerState × List String :=
  ({ s with isAnalyzing := false }, ["Analysis failed:"])

/-- `applyImprovements`, success path: `setImprovedHtml(data.improved_html)`. -/
def applyImprovementsSuccess (improvedHtml : String) (s : ModernizerState) :
    ModernizerState × List String :=
  ({ s with improvedHtml := improvedHtml }, [])

/-- `applyImprovements`, failure path: console log only. -/
def applyImprovementsFailure (s : ModernizerState) : ModernizerState × List String :=
  (s, ["Failed to apply improvements:"])

/-- The `srcDoc` of the "Original" preview iframe: `srcDoc={html}`. -/
def originalPaneSrcDoc (s : ModernizerState) : String :=
  s.html

/-- The `srcDoc` of the "Improved" preview iframe:
`srcDoc={improvedHtml || html}`.  For JavaScript strings, the only falsy
value is the empty string, so `improvedHtml || html` is `html` exactly when
`improvedHtml` is `""`. -/
def improvedPaneSrcDoc (s : ModernizerState) : String :=
  if s.improvedHtml = "" then s.html else s.improvedHtml

/-! ## Properties of first-occurrence replacement -/

/-- `replaceFirstAux` returns `none` exactly when the pattern does not occur
in the text. -/
theorem replaceFirstAux_eq_none_iff (s pat rep : List Char) :
    replaceFirstAux s pat rep = none ↔ ¬ pat <:+: s := by
  induction s with
  | nil =>
    by_cases h : pat = [] <;> simp [replaceFirstAux, List.infix_nil, h]
  | cons c cs ih =>
    by_cases h : pat.isPrefixOf (c :: cs)
    · have hpre : pat <+: c :: cs := List.isPrefixOf_iff_prefix.mp h
      simp [replaceFirstAux, h, List.infix_cons_iff, hpre]
    · have hpre : ¬ pat <+: c :: cs := fun hc => h (List.isPrefixOf_iff_prefix.mpr hc)
      simp only [replaceFirstAux, if_neg h, Option.map_eq_none', ih,
        List.infix_cons_iff]
      tauto

/-- When `replaceFirstAux` succeeds, the text decomposes around the *first*
occurrence of the pattern (no decomposition has a strictly shorter prefix),
and the result replaces exactly that occurrence. -/
theorem replaceFirstAux_eq_some (s pat rep t : List Char)
    (h : replaceFirstAux s pat rep = some t) :
    ∃ a b, s = a ++ pat ++ b ∧ t = a ++ rep ++ b ∧
      ∀ a' b', s = a' ++ pat ++ b' → a.length ≤ a'.length := by
  induction s generalizing t with
  | nil =>
    by_cases hp : pat = []
    · subst hp
      simp only [replaceFirstAux, if_true, Option.some.injEq] at h
      exact ⟨[], [], by simp, by simp [h], fun a' b' _ => Nat.zero_le _⟩
    · simp [replaceFirstAux, hp] at h
  | cons c cs ih =>
    by_cases hp : pat.isPrefixOf (c :: cs)
    · rw [replaceFirstAux, if_pos hp] at h
      obtain ⟨b, hb⟩ := List.isPrefixOf_iff_prefix.mp hp
      have hdrop : (c :: cs).drop pat.length = b := by
        rw [← hb]; exact List.drop_left _ _
      refine ⟨[], b, by simp [← hb], ?_, fun a' b' _ => Nat.zero_le _⟩
      injection h with h'
      simp [← h', hdrop]
    · rw [replaceFirstAux, if_neg hp] at h
      obtain ⟨u, hu, htu⟩ := Option.map_eq_some'.mp h
      obtain ⟨a, b, hs, hab, hmin⟩ := ih u hu
      refine ⟨c :: a, b, by simp [hs], by simp [← htu, hab], ?_⟩
      intro a' b' hsplit
      cases a' with
      | nil =>
        exact absurd (List.isPrefixOf_iff_prefix.mpr ⟨b', by simpa using hsplit.symm⟩) hp
      | cons c' a'' =>
        rw [List.cons_append, List.cons_append] at hsplit
        injection hsplit with _ htl
        simpa using Nat.succ_le_succ (hmin a'' b' htl)

/-- Miss tolerance at the single-record level: when `originalCode` does not
occur in the working text, `substOne` leaves it unchanged. -/
theorem substOne_of_not_infix (working : String) (r : ImprovementRecord)
    (h : ¬ r.originalCode.data <:+: working.data) : substOne working r = working := by
  have h1 : replaceFirstAux working.data r.originalCode.data r.improvedCode.data = none :=
    (replaceFirstAux_eq_none_iff _ _ _).mpr h
  simp [substOne, replaceFirst, h1]

/-- When `originalCode` occurs in the working text, `substOne` replaces
exactly its first occurrence by `improvedCode`. -/
theorem substOne_data_of_infix (working : String) (r : ImprovementRecord)
    (h : r.originalCode.data <:+: working.data) :
    ∃ a b, working.data = a ++ r.originalCode.data ++ b ∧
      (substOne working r).data = a ++ r.improvedCode.data ++ b ∧
      ∀ a' b', working.data = a' ++ r.originalCode.data ++ b' → a.length ≤ a'.length := by
  have h1 : replaceFirstAux working.data r.originalCode.data r.improvedCode.data ≠ none :=
    fun hnone => absurd h ((replaceFirstAux_eq_none_iff _ _ _).mp hnone)
  obtain ⟨t, ht⟩ := Option.ne_none_iff_exists'.mp h1
  obtain ⟨a, b, hs, hab, hmin⟩ := replaceFirstAux_eq_some _ _ _ _ ht
  exact ⟨a, b, hs, by simp [substOne, replaceFirst, ht, hab], hmin⟩

/-! ## Concrete fixtures -/

/-- Concrete record from the spec's overlap example: `r1: "Hi" → "Hello"`. -/
def r1Hi : ImprovementRecord :=
  ⟨"r1", "semantics", "high", "greeting wording", "use a full greeting", "Hi", "Hello"⟩

/-- Concrete record from the spec's overlap example: `r2: "Hi" → "Hey"`. -/
def r2Hi : ImprovementRecord :=
  ⟨"r2", "semantics", "low", "greeting wording", "use a casual greeting", "Hi", "Hey"⟩

/-- Concrete record with id `"a"`. -/
def rA : ImprovementRecord :=
  ⟨"a", "semantics", "high", "bold is presentational", "use strong", "<b>", "<strong>"⟩

/-- Concrete record with id `"b"`. -/
def rB : ImprovementRecord :=
  ⟨"b", "accessibility", "low", "italic is presentational", "use em", "<i>", "<em>"⟩

/-- A concrete component state holding a catalog and a nonempty selection. -/
def stateWithSelection : ModernizerState :=
  { html := "<b>x</b>"
    improvements := some [rA]
    selectedImprovements := [("a", rA)]
    isAnalyzing := false
    improvedHtml := "" }

/-! ## Claims -/

/-- Claim C1: `apply` processes the selected records in catalog order; each
selected record replaces the first occurrence of its `originalCode` in the
current working text (reflecting earlier substitutions of the same pass) with
its `improvedCode`; a record whose `originalCode` is absent is skipped
silently; and when two selected records both target the same substring the
earlier-in-catalog record consumes the match and the later one is skipped
(`r1: "Hi"→"Hello"`, `r2: "Hi"→"Hey"` on `"Hi"` yields `"Hello"`). -/
theorem apply_catalog_order_first_occurrence_miss_skip :
    (∀ (original : String) (r : ImprovementRecord) (rest : Catalog) (sel : SelectionSet),
      apply original (r :: rest) sel = apply (applyStep sel original r) rest sel) ∧
    (∀ (working : String) (r : ImprovementRecord),
      ¬ r.originalCode.data <:+: working.data → substOne working r = working) ∧
    (∀ (working : String) (r : ImprovementRecord),
      r.originalCode.data <:+: working.data →
      ∃ a b, working.data = a ++ r.originalCode.data ++ b ∧
        (substOne working r).data = a ++ r.improvedCode.data ++ b ∧
        ∀ a' b', working.data = a' ++ r.originalCode.data ++ b' → a.length ≤ a'.length) ∧
    apply "Hi" [r1Hi, r2Hi] ["r1", "r2"] = "Hello" :=
  ⟨fun _ _ _ _ => rfl, substOne_of_not_infix, substOne_data_of_infix, by decide⟩

/-- Witness for C1: the miss-skip conjunct at `working = "abc"` (no
occurrence of `"Hi"`) and the first-occurrence conjunct at
`working = "xHiy"`. -/
theorem apply_catalog_order_first_occurrence_miss_skip_witness :
    substOne "abc" r1Hi = "abc" ∧
    (∃ a b, ("xHiy" : String).data = a ++ r1Hi.originalCode.data ++ b ∧
      (substOne "xHiy" r1Hi).data = a ++ r1Hi.improvedCode.data ++ b ∧
      ∀ a' b', ("xHiy" : String).data = a' ++ r1Hi.originalCode.data ++ b' →
        a.length ≤ a'.length) :=
  ⟨apply_catalog_order_first_occurrence_miss_skip.2.1 "abc" r1Hi (by decide),
   apply_catalog_order_first_occurrence_miss_skip.2.2.1 "xHiy" r1Hi (by decide)⟩

/-- Claim C2: `apply` is a deterministic function of
(original, catalog, selection set): identical arguments give identical
output, and the result depends on the selection only through membership, so
any two toggle sequences ending in the same final selection set yield the
same transformed document regardless of toggle order. -/
theorem apply_deterministic_and_order_independent :
    (∀ (original : String) (catalog : Catalog) (sel : SelectionSet),
      apply original catalog sel = apply original catalog sel) ∧
    (∀ (original : String) (catalog : Catalog) (s1 s2 : SelectionSet),
      (∀ id : String, id ∈ s1 ↔ id ∈ s2) →
      apply original catalog s1 = apply original catalog s2) := by
  refine ⟨fun _ _ _ => rfl, fun original catalog s1 s2 hmem => ?_⟩
  induction catalog generalizing original with
  | nil => rfl
  | cons r rest ih =>
    have hstep : applyStep s1 original r = applyStep s2 original r := by
      by_cases hc : r.id ∈ s1
      · simp [applyStep, hc, (hmem r.id).mp hc]
      · have hc2 : r.id ∉ s2 := fun h => hc ((hmem r.id).mpr h)
        simp [applyStep, hc, hc2]
    show apply (applyStep s1 original r) rest s1 = apply (applyStep s2 original r) rest s2
    rw [hstep]
    exact ih (applyStep s2 original r)

/-- Witness for C2: the order-independence conjunct at the selection lists
`["a", "b"]` and `["b", "a"]`, which have the same membership. -/
theorem apply_deterministic_and_order_independent_witness :
    apply "<b>x</b><i>y</i>" [rA, rB] ["a", "b"] =
      apply "<b>x</b><i>y</i>" [rA, rB] ["b", "a"] :=
  apply_deterministic_and_order_independent.2 "<b>x</b><i>y</i>" [rA, rB]
    ["a", "b"] ["b", "a"] (fun id => by constructor <;> (intro h; simp_all; tauto))

/-- Claim C3: applying the empty selection returns the original document
unchanged, for every original and catalog; `apply` is total by construction
(a pure fold over the catalog), so it never fails on any input. -/
theorem apply_empty_selection_identity (original : String) (catalog : Catalog) :
    apply original catalog [] = original := by
  induction catalog generalizing original with
  | nil => rfl
  | cons r rest ih =>
    show apply (applyStep [] original r) rest [] = original
    simpa [applyStep] using ih original

/-- Claim C5: `load` validates id uniqueness: any record list with a
duplicate id fails with `DuplicateIdError` (never silently deduplicated), and
any list with unique ids is stored exactly as given, in provider response
order. -/
theorem load_unique_ids_or_duplicate_error :
    (∀ records : List ImprovementRecord,
      ¬ (records.map (fun r => r.id)).Nodup →
      load records = Except.error EngineError.duplicateIdError) ∧
    (∀ records : List ImprovementRecord,
      (records.map (fun r => r.id)).Nodup →
      load records = Except.ok records) := by
  constructor <;> intro records h <;> simp [load, h]

/-- Witness for C5: a duplicated id fails, and a unique-id list loads as
given. -/
theorem load_unique_ids_or_duplicate_error_witness :
    load [rA, rA] = Except.error EngineError.duplicateIdError ∧
    load [rA, rB] = Except.ok [rA, rB] :=
  ⟨load_unique_ids_or_duplicate_error.1 [rA, rA] (by decide),
   load_unique_ids_or_duplicate_error.2 [rA, rB] (by decide)⟩

/-- Claim C6: `toggle` removes an id already in the selection, adds an id
that is in the catalog but not in the selection, and fails with
`UnknownImprovementError` for an id in neither — returning no new selection,
so the caller's selection is left unchanged. -/
theorem toggle_remove_add_unknown :
    (∀ (catalog : Catalog) (sel : SelectionSet) (id : String),
      id ∈ sel → toggle catalog sel id = Except.ok (sel.erase id)) ∧
    (∀ (catalog : Catalog) (sel : SelectionSet) (id : String),
      id ∉ sel → id ∈ catalogIds catalog →
      toggle catalog sel id = Except.ok (id :: sel)) ∧
    (∀ (catalog : Catalog) (sel : SelectionSet) (id : String),
      id ∉ sel → id ∉ catalogIds catalog →
      toggle catalog sel id = Except.error EngineError.unknownImprovementError) := by
  refine ⟨fun c sel id h => ?_, fun c sel id h1 h2 => ?_, fun c sel id h1 h2 => ?_⟩ <;>
    simp_all [toggle]

/-- Witness for C6: over the catalog `[rA]`, toggling `"a"` off a selection
containing it, toggling `"a"` onto the empty selection, and toggling the
unknown id `"z"`. -/
theorem toggle_remove_add_unknown_witness :
    toggle [rA] ["a"] "a" = Except.ok [] ∧
    toggle [rA] [] "a" = Except.ok ["a"] ∧
    toggle [rA] [] "z" = Except.error EngineError.unknownImprovementError :=
  ⟨toggle_remove_add_unknown.1 [rA] ["a"] "a" (by decide),
   toggle_remove_add_unknown.2.1 [rA] [] "a" (by decide) (by decide),
   toggle_remove_add_unknown.2.2 [rA] [] "z" (by decide) (by decide)⟩

/-- Claim C8: for an id of the catalog not currently selected, toggling it on
and then off returns the selection to its prior value, and therefore the
transformed document computed from the resulting selection equals the one
computed before the toggle pair. -/
theorem toggle_on_then_off_roundtrip :
    ∀ (catalog : Catalog) (sel : SelectionSet) (id : String),
      id ∉ sel → id ∈ catalogIds catalog →
      (toggle catalog sel id).bind (fun sel2 => toggle catalog sel2 id) =
        Except.ok sel ∧
      ∀ original : String,
        Except.map (fun sel' => apply original catalog sel')
            ((toggle catalog sel id).bind (fun sel2 => toggle catalog sel2 id)) =
          Except.ok (apply original catalog sel) := by
  intro catalog sel id h1 h2
  have ht1 : toggle catalog sel id = Except.ok (id :: sel) := by simp [toggle, h1, h2]
  have ht2 : toggle catalog (id :: sel) id = Except.ok sel := by
    simp [toggle, List.erase_cons_head]
  have hbind : (toggle catalog sel id).bind (fun sel2 => toggle catalog sel2 id) =
      Except.ok sel := by
    rw [ht1]
    simpa [Except.bind] using ht2
  exact ⟨hbind, fun original => by rw [hbind]; rfl⟩

/-- Witness for C8: toggling `"a"` on then off over the catalog `[rA]`
starting from the empty selection. -/
theorem toggle_on_then_off_roundtrip_witness :
    (toggle [rA] [] "a").bind (fun sel2 => toggle [rA] sel2 "a") = Except.ok [] ∧
    Except.map (fun sel' => apply "<b>x</b>" [rA] sel')
        ((toggle [rA] [] "a").bind (fun sel2 => toggle [rA] sel2 "a")) =
      Except.ok (apply "<b>x</b>" [rA] []) :=
  ⟨(toggle_on_then_off_roundtrip [rA] [] "a" (by decide) (by decide)).1,
   (toggle_on_then_off_roundtrip [rA] [] "a" (by decide) (by decide)).2 "<b>x</b>"⟩

/-- Counterexample to claim C4 as stated: a successful analysis pass replaces
the Catalog (`some [rA]` becomes `some [rB]`) yet the SelectionSet is *not*
reset to empty — it still holds the previously selected record. -/
theorem analysis_pass_does_not_reset_selection_cex :
    (analyzeSuccess ⟨some [rB]⟩ stateWithSelection).1.improvements ≠
        stateWithSelection.improvements ∧
      (analyzeSuccess ⟨some [rB]⟩ stateWithSelection).1.selectedImprovements ≠ [] := by
  constructor <;> decide

/-- Claim C4 (amended): a new analysis pass replaces the Catalog but leaves
the SelectionSet unchanged (the component never resets it); none of the
analysis or apply handlers mutate the SelectionSet, so it is mutated only by
explicit user toggle actions. -/
theorem selection_untouched_by_analysis_and_apply :
    ∀ (resp : AnalyzeResponse) (improved : String) (s : ModernizerState),
      (analyzeSuccess resp s).1.improvements = resp.improvements ∧
      (analyzeSuccess resp s).1.selectedImprovements = s.selectedImprovements ∧
      (analyzeFailure s).1.selectedImprovements = s.selectedImprovements ∧
      (applyImprovementsSuccess improved s).1.selectedImprovements =
        s.selectedImprovements ∧
      (applyImprovementsFailure s).1.selectedImprovements = s.selectedImprovements :=
  fun _ _ _ => ⟨rfl, rfl, rfl, rfl, rfl⟩

/-- Counterexample to claim C7 as stated: a malformed provider response that
still parses (its `improvements` field missing) is not detected as an
`AnalysisError`; the success path runs and the previous Catalog is replaced
(by `undefined`), not left untouched. -/
theorem malformed_response_replaces_catalog_cex :
    (analyzeSuccess ⟨none⟩ stateWithSelection).1.improvements ≠
      stateWithSelection.improvements := by
  decide

/-- Claim C7 (amended): when the provider call throws (network failure or an
unparseable response), the previous Catalog and SelectionSet are left
untouched and the failure is logged to the browser console (not surfaced as a
user-visible message); a parseable response with a missing or malformed
`improvements` field is not detected as an error and replaces the Catalog
with whatever the field holds, though the SelectionSet still stays
untouched. -/
theorem analysis_failure_untouched_console_only :
    ∀ s : ModernizerState,
      (analyzeFailure s).1.improvements = s.improvements ∧
      (analyzeFailure s).1.selectedImprovements = s.selectedImprovements ∧
      (analyzeFailure s).1.html = s.html ∧
      (analyzeFailure s).1.improvedHtml = s.improvedHtml ∧
      (analyzeFailure s).2 = ["Analysis failed:"] ∧
      ∀ resp : AnalyzeResponse,
        (analyzeSuccess resp s).1.improvements = resp.improvements ∧
        (analyzeSuccess resp s).1.selectedImprovements = s.selectedImprovements :=
  fun _ => ⟨rfl, rfl, rfl, rfl, rfl, fun _ => ⟨rfl, rfl⟩⟩

/-- Claim C9: whenever the transformed document state `improvedHtml` is the
empty string — as it is in the initial state, before any improvement has ever
been applied — the "Improved" preview pane renders the original source
document (`srcDoc={improvedHtml || html}`), so both panes show the same
document. -/
theorem improved_pane_falls_back_to_original :
    (∀ s : ModernizerState,
      s.improvedHtml = "" → improvedPaneSrcDoc s = originalPaneSrcDoc s) ∧
    initialModernizerState.improvedHtml = "" :=
  ⟨fun s h => by simp [improvedPaneSrcDoc, originalPaneSrcDoc, h], rfl⟩

/-- Witness for C9: in the concrete state with empty `improvedHtml`, the
Improved pane's `srcDoc` equals the Original pane's. -/
theorem improved_pane_falls_back_to_original_witness :
    improvedPaneSrcDoc stateWithSelection = originalPaneSrcDoc stateWithSelection :=
  improved_pane_falls_back_to_original.1 stateWithSelection rfl

end Appian
